import Mathlib

/-!
Verification of the LAS point-cloud export tool (`arcgis.py`).

The development shallowly embeds the core pipeline:
chunked reading of decoded points, the flat CSV sink, the paginated
Excel sink with sheet rollover at `EXCEL_MAX_ROWS`, and the two batch
drivers (the CLI loop in `main` and the GUI `_export_worker`).
-/

namespace GIS

variable {α : Type}

/-- Maximum rows per Excel sheet, header included (`EXCEL_MAX_ROWS` in the source). -/
def EXCEL_MAX_ROWS : ℕ := 1048576

/-- Default chunk size used by the drivers (`CHUNK_SIZE` in the source). -/
def CHUNK_SIZE : ℕ := 500000

/-- The exports call `chunk_points(reader, max(1, chunk_size))`: a possibly
non-positive configured chunk size is clamped to at least 1. -/
def clampChunk (cs : ℤ) : ℕ := (max 1 cs).toNat

/-- Modelled from the spec: `laspy`'s `reader.chunk_iterator(chunk_size)` is not
part of this repository; per the spec it yields the point records as successive
chunks of at most `chunk_size` records, in input order, the final chunk possibly
smaller.  `acc` holds the records accumulated for the chunk being built. -/
def chunksAcc (n : ℕ) : List α → List α → List (List α)
  | [], acc => if acc.isEmpty then [] else [acc]
  | x :: xs, acc =>
      if n ≤ acc.length + 1 then (acc ++ [x]) :: chunksAcc n xs []
      else chunksAcc n xs (acc ++ [x])

/-- The chunk sequence produced for a list of records. -/
def chunksOf (n : ℕ) (l : List α) : List (List α) := chunksAcc n l []

theorem chunksAcc_flatten (n : ℕ) :
    ∀ (l acc : List α), (chunksAcc n l acc).flatten = acc ++ l := by
  intro l
  induction l with
  | nil =>
      intro acc
      by_cases h : acc.isEmpty
      · simp [chunksAcc, h, List.isEmpty_iff.mp h]
      · simp [chunksAcc, h]
  | cons x xs ih =>
      intro acc
      by_cases h : n ≤ acc.length + 1
      · simp [chunksAcc, h, ih]
      · simp [chunksAcc, h, ih]

/-- Concatenating the chunks recovers the record list: no record is dropped,
duplicated, or reordered by chunking. -/
theorem chunksOf_flatten (n : ℕ) (l : List α) : (chunksOf n l).flatten = l := by
  simpa [chunksOf] using chunksAcc_flatten n l []

/-- Folding a row-writer over the chunks one chunk at a time is folding it
over the flattened record sequence. -/
theorem foldl_chunksOf {β : Type} (f : β → α → β) (n : ℕ) (l : List α) (b : β) :
    (chunksOf n l).foldl (fun st c => c.foldl f st) b = l.foldl f b := by
  have h : ∀ (L : List (List α)) (b : β),
      L.foldl (fun st c => c.foldl f st) b = L.flatten.foldl f b := by
    intro L
    induction L with
    | nil => intro b; simp
    | cons c L ih => intro b; simp [List.foldl_append, ih]
  rw [h, chunksOf_flatten]

/-- One output row: either the header row (`EASTING,NORTHING,ELEVATION`) or a
data row holding one decoded point. -/
inductive Row (α : Type) : Type where
  | header : Row α
  | data : α → Row α
deriving DecidableEq

/-- The header cells appended by the source:
`["EASTING", "NORTHING", "ELEVATION"]`. -/
def headerCells : List String := ["EASTING", "NORTHING", "ELEVATION"]

/-- Cell rendering of a row, given a rendering of point values. -/
def Row.render (f : α → List String) : Row α → List String
  | Row.header => headerCells
  | Row.data p => f p

/-- The serialized CSV line of a row: its cells joined by commas. -/
def csvLine (f : α → List String) (r : Row α) : String :=
  String.intercalate "," (Row.render f r)

/-- The data points carried by a list of rows, in order. -/
def rowData : List (Row α) → List α :=
  List.filterMap fun r => match r with
    | Row.header => none
    | Row.data p => some p

@[simp] theorem rowData_nil : rowData ([] : List (Row α)) = [] := rfl

@[simp] theorem rowData_header_cons (l : List (Row α)) :
    rowData (Row.header :: l) = rowData l := rfl

@[simp] theorem rowData_data_cons (p : α) (l : List (Row α)) :
    rowData (Row.data p :: l) = p :: rowData l := rfl

@[simp] theorem rowData_append (l l' : List (Row α)) :
    rowData (l ++ l') = rowData l ++ rowData l' := by
  simp [rowData, List.filterMap_append]

@[simp] theorem rowData_map_data (ps : List α) :
    rowData (ps.map Row.data) = ps := by
  induction ps with
  | nil => rfl
  | cons p ps ih => simp [ih]

/-- Flat CSV export (`export_las_to_csv`): the file receives the header row
once, then, chunk by chunk, one data row per decoded point
(`writer.writerows(zip(x_arr, y_arr, z_arr))`). The result is the row
sequence written to the file. -/
def export_las_to_csv (cs : ℤ) (points : List α) : List (Row α) :=
  (chunksOf (clampChunk cs) points).foldl
    (fun out c => out ++ c.map Row.data) [Row.header]

theorem export_las_to_csv_eq (cs : ℤ) (points : List α) :
    export_las_to_csv cs points = Row.header :: points.map Row.data := by
  have h : ∀ (L : List (List α)) (init : List (Row α)),
      L.foldl (fun out c => out ++ c.map Row.data) init
        = init ++ L.flatten.map Row.data := by
    intro L
    induction L with
    | nil => intro init; simp
    | cons c L ih => intro init; simp [ih]
  simp [export_las_to_csv, h, chunksOf_flatten]

/-- One sheet of the workbook: its title (`Points_{i}`) and the rows appended
to it, in order. -/
structure Sheet (α : Type) : Type where
  title : String
  rows : List (Row α)
deriving DecidableEq

/-- The title given to the sheet with index `i`: `f"Points_{sheet_index}"`. -/
def sheetTitle (i : ℕ) : String := "Points_" ++ toString i

/-- The loop state of `export_las_to_excel`: the sheet counter `sheet_index`,
the sheets already rolled over, the current sheet `ws`, and `rows_in_sheet`. -/
structure ExcelState (α : Type) : Type where
  sheetIndex : ℕ
  done : List (Sheet α)
  cur : Sheet α
  rowsInSheet : ℕ
deriving DecidableEq

/-- Writing one data row (one iteration of `for row in zip(x_arr, y_arr, z_arr)`):
if `rows_in_sheet >= EXCEL_MAX_ROWS` the sheet counter is incremented, a fresh
sheet with the incremented title suffix is created, the header is re-emitted as
its row 1 and the data row becomes its row 2; otherwise the data row is appended
to the current sheet. `R` abstracts the source's `EXCEL_MAX_ROWS` constant. -/
def excelWriteRow (R : ℕ) (st : ExcelState α) (p : α) : ExcelState α :=
  if R ≤ st.rowsInSheet then
    { sheetIndex := st.sheetIndex + 1
      done := st.done ++ [st.cur]
      cur := { title := sheetTitle (st.sheetIndex + 1)
               rows := [Row.header, Row.data p] }
      rowsInSheet := 2 }
  else
    { st with
      cur := { st.cur with rows := st.cur.rows ++ [Row.data p] }
      rowsInSheet := st.rowsInSheet + 1 }

/-- The state before the read loop: `sheet_index = 1`, one sheet `Points_1`
holding only the header, `rows_in_sheet = 1`. -/
def excelInit (α : Type) : ExcelState α :=
  { sheetIndex := 1
    done := []
    cur := { title := sheetTitle 1, rows := [Row.header] }
    rowsInSheet := 1 }

/-- The workbook saved by `wb.save`: every sheet created, in creation order. -/
def excelFinal (st : ExcelState α) : List (Sheet α) := st.done ++ [st.cur]

/-- The state after the nested read loop has consumed a point sequence. -/
def excelRunState (R : ℕ) (points : List α) : ExcelState α :=
  points.foldl (excelWriteRow R) (excelInit α)

/-- Paginated Excel export (`export_las_to_excel`): the outer loop iterates the
chunks of `chunk_points(reader, max(1, chunk_size))`, the inner loop writes each
decoded point of the chunk; the saved workbook is the resulting sheet list. -/
def export_las_to_excel (R : ℕ) (cs : ℤ) (points : List α) : List (Sheet α) :=
  excelFinal
    ((chunksOf (clampChunk cs) points).foldl
      (fun st c => c.foldl (excelWriteRow R) st) (excelInit α))

theorem export_las_to_excel_eq_run (R : ℕ) (cs : ℤ) (points : List α) :
    export_las_to_excel R cs points = excelFinal (excelRunState R points) := by
  simp [export_las_to_excel, excelRunState, foldl_chunksOf]

/-- The data points present in a sheet list, reading the sheets in order and
each sheet's rows in order. -/
def allData (sheets : List (Sheet α)) : List α :=
  (sheets.map fun s => rowData s.rows).flatten

/-- The data points the loop state would contribute to the saved workbook. -/
def stData (st : ExcelState α) : List α := allData (excelFinal st)

theorem stData_writeRow (R : ℕ) (st : ExcelState α) (p : α) :
    stData (excelWriteRow R st p) = stData st ++ [p] := by
  by_cases h : R ≤ st.rowsInSheet <;>
    simp [stData, excelWriteRow, excelFinal, allData, h]

theorem stData_foldl (R : ℕ) :
    ∀ (ps : List α) (st : ExcelState α),
      stData (ps.foldl (excelWriteRow R) st) = stData st ++ ps := by
  intro ps
  induction ps with
  | nil => intro st; simp
  | cons p ps ih => intro st; simp [ih, stData_writeRow]

theorem allData_export (R : ℕ) (cs : ℤ) (points : List α) :
    allData (export_las_to_excel R cs points) = points := by
  rw [export_las_to_excel_eq_run]
  have h := stData_foldl R points (excelInit α)
  have hinit : stData (excelInit α) = [] := by
    simp [stData, excelInit, excelFinal, allData]
  simpa [excelRunState, stData, hinit] using h

/-- The reachable-state invariant of the Excel write loop after `k` data rows
have been written, for sheet capacity `R`. -/
structure ExcelInv (R k : ℕ) (st : ExcelState α) : Prop where
  rows_eq : st.rowsInSheet = st.cur.rows.length
  rows_le : st.rowsInSheet ≤ R
  rows_ge : 2 ≤ st.rowsInSheet ∨ (st.done = [] ∧ st.rowsInSheet = 1)
  index_eq : st.sheetIndex = st.done.length + 1
  done_full : ∀ s ∈ st.done, s.rows.length = R
  count_eq : k = st.done.length * (R - 1) + (st.rowsInSheet - 1)
  titles_eq : (st.done ++ [st.cur]).map Sheet.title
      = (List.range (st.done.length + 1)).map (fun i => sheetTitle (i + 1))
  shape : ∀ s ∈ st.done ++ [st.cur],
      ∃ ps : List α, s.rows = Row.header :: ps.map Row.data

theorem excelInv_init (R : ℕ) (hR : 2 ≤ R) : ExcelInv R 0 (excelInit α) := by
  constructor
  · simp [excelInit]
  · simp [excelInit]; omega
  · simp [excelInit]
  · simp [excelInit]
  · simp [excelInit]
  · simp [excelInit]
  · simp [excelInit, List.range_succ]
  · intro s hs
    simp [excelInit] at hs
    exact ⟨[], by simp [hs]⟩

theorem excelInv_step (R k : ℕ) (hR : 2 ≤ R) (st : ExcelState α) (p : α)
    (h : ExcelInv R k st) : ExcelInv R (k + 1) (excelWriteRow R st p) := by
  by_cases hfull : R ≤ st.rowsInSheet
  · have hrows : st.rowsInSheet = R := le_antisymm h.rows_le hfull
    constructor
    · simp [excelWriteRow, hfull]
    · simp [excelWriteRow, hfull]; omega
    · simp [excelWriteRow, hfull]
    · simp [excelWriteRow, hfull, h.index_eq]
    · intro s hs
      simp [excelWriteRow, hfull] at hs
      rcases hs with hs | hs
      · exact h.done_full s hs
      · rw [hs, ← h.rows_eq, hrows]
    · have hc := h.count_eq
      rw [hrows] at hc
      simp only [excelWriteRow, hfull, if_pos, List.length_append,
        List.length_singleton]
      rw [Nat.add_mul, one_mul]
      omega
    · simp only [excelWriteRow, hfull, if_pos, List.length_append,
        List.length_singleton]
      have ht := h.titles_eq
      rw [List.range_succ]
      simp only [List.map_append, List.map_cons, List.map_nil] at ht ⊢
      rw [ht, h.index_eq]
    · intro s hs
      simp [excelWriteRow, hfull] at hs
      rcases hs with hs | hs | hs
      · exact h.shape s (by simp [hs])
      · exact h.shape s (by simp [hs])
      · exact ⟨[p], by simp [hs]⟩
  · constructor
    · have hre := h.rows_eq
      simp [excelWriteRow, hfull]
      omega
    · simp [excelWriteRow, hfull]; omega
    · have h1 : 1 ≤ st.rowsInSheet := by
        rcases h.rows_ge with h2 | ⟨_, h2⟩ <;> omega
      simp [excelWriteRow, hfull]
      exact Or.inl (by omega)
    · simp [excelWriteRow, hfull, h.index_eq]
    · intro s hs
      simp [excelWriteRow, hfull] at hs
      exact h.done_full s hs
    · have hc := h.count_eq
      have h1 : 1 ≤ st.rowsInSheet := by
        rcases h.rows_ge with h2 | ⟨_, h2⟩ <;> omega
      simp [excelWriteRow, hfull]
      omega
    · have ht := h.titles_eq
      simp only [List.map_append, List.map_cons, List.map_nil] at ht
      simp [excelWriteRow, hfull]
      simpa using ht
    · intro s hs
      simp [excelWriteRow, hfull] at hs
      rcases hs with hs | hs
      · exact h.shape s (by simp [hs])
      · obtain ⟨ps, hps⟩ := h.shape st.cur (by simp)
        exact ⟨ps ++ [p], by simp [hs, hps]⟩

theorem excelInv_foldl (R : ℕ) (hR : 2 ≤ R) :
    ∀ (ps : List α) (k : ℕ) (st : ExcelState α),
      ExcelInv R k st → ExcelInv R (k + ps.length) (ps.foldl (excelWriteRow R) st) := by
  intro ps
  induction ps with
  | nil => intro k st h; simpa using h
  | cons p ps ih =>
      intro k st h
      have := ih (k + 1) (excelWriteRow R st p) (excelInv_step R k hR st p h)
      simpa [Nat.add_comm, Nat.add_assoc, Nat.add_left_comm] using this

theorem excelInv_run (R : ℕ) (hR : 2 ≤ R) (points : List α) :
    ExcelInv R points.length (excelRunState R points) := by
  simpa using excelInv_foldl R hR points 0 (excelInit α) (excelInv_init R hR)

/-- The LAS header fields the decode depends on: per-axis scale and offset.
Exact rationals stand for the header doubles. -/
structure LasHeader : Type where
  xScale : ℚ
  yScale : ℚ
  zScale : ℚ
  xOffset : ℚ
  yOffset : ℚ
  zOffset : ℚ
deriving DecidableEq

/-- One stored point record: the three signed integers X, Y, Z. -/
structure RawPoint : Type where
  X : ℤ
  Y : ℤ
  Z : ℤ
deriving DecidableEq

/-- Modelled from the spec: the scaled-coordinate access `points.x`, `points.y`,
`points.z` used by `chunk_points` is performed by `laspy`, which is not part of
this repository; per the spec each axis recovers
`real = stored_integer * scale + offset`, independently of the other axes. -/
def decodePoint (h : LasHeader) (p : RawPoint) : ℚ × ℚ × ℚ :=
  ((p.X : ℚ) * h.xScale + h.xOffset,
   (p.Y : ℚ) * h.yScale + h.yOffset,
   (p.Z : ℚ) * h.zScale + h.zOffset)

/-- `chunk_points(reader, chunk_size)`: the stored records, chunked, with each
chunk's records decoded to scaled coordinate triples. -/
def chunk_points (h : LasHeader) (n : ℕ) (raws : List RawPoint) :
    List (List (ℚ × ℚ × ℚ)) :=
  (chunksOf n raws).map (List.map (decodePoint h))

/-- Source-side errors, per the spec's taxonomy. -/
inductive SourceError : Type where
  | Malformed : SourceError
  | Truncated : SourceError
  | Io : SourceError
deriving DecidableEq

instance {ε σ : Type} [DecidableEq ε] [DecidableEq σ] : DecidableEq (Except ε σ) :=
  fun a b =>
    match a, b with
    | Except.error e, Except.error e' =>
        if h : e = e' then isTrue (by rw [h]) else isFalse (by simp [h])
    | Except.error _, Except.ok _ => isFalse (by simp)
    | Except.ok _, Except.error _ => isFalse (by simp)
    | Except.ok s, Except.ok s' =>
        if h : s = s' then isTrue (by rw [h]) else isFalse (by simp [h])

/-- An input file as the source sees it: the point count its header declares
and the points actually decodable from the available point-data bytes. -/
structure LasInput (α : Type) : Type where
  declaredCount : ℕ
  points : List α
deriving DecidableEq

/-- Modelled from the spec: `laspy.open` is not part of this repository; per the
spec, opening the source fails with `Truncated` when the declared point count
exceeds the available point-data bytes, and otherwise yields the point
sequence. -/
def sourceOpen (inp : LasInput α) : Except SourceError (List α) :=
  if inp.points.length < inp.declaredCount then Except.error SourceError.Truncated
  else Except.ok inp.points

/-- The observable outcome of one export run: the destination file's contents
after the run (`none` when no file was created) and the run's result. -/
structure CsvRunResult (α : Type) : Type where
  file : Option (List (Row α))
  result : Except SourceError Unit
deriving DecidableEq

/-- A full `export_las_to_csv` run. The source opens the CSV destination and
writes the header row before `laspy.open` is reached, so on a source error the
`with open` block still leaves a file holding the header on disk. -/
def csvRun (cs : ℤ) (inp : LasInput α) : CsvRunResult α :=
  match sourceOpen inp with
  | Except.error e => { file := some [Row.header], result := Except.error e }
  | Except.ok pts =>
      { file := some (export_las_to_csv cs pts), result := Except.ok () }

/-- The observable outcome of one Excel export run. -/
structure ExcelRunResult (α : Type) : Type where
  file : Option (List (Sheet α))
  result : Except SourceError Unit
deriving DecidableEq

/-- A full `export_las_to_excel` run. The workbook is built in memory and
`wb.save(xlsx_path)` runs only after the read loop completes, so on a source
error no destination file is ever created. -/
def excelRun (R : ℕ) (cs : ℤ) (inp : LasInput α) : ExcelRunResult α :=
  match sourceOpen inp with
  | Except.error e => { file := none, result := Except.error e }
  | Except.ok pts =>
      { file := some (export_las_to_excel R cs pts), result := Except.ok () }

/-- One batch job (`export_las_to_csv(las_path, out_csv, CHUNK_SIZE)`): the
rows written on success, or the error the job raises. -/
def exportJob (cs : ℤ) (inp : LasInput α) : Except SourceError (List (Row α)) :=
  (sourceOpen inp).map (export_las_to_csv cs)

/-- The CLI batch loop of `main` (`for las_path in files: export_las_to_csv(...)`).
It has no per-file exception handling: the first failing job raises out of the
loop, so the pair holds the outputs of the jobs completed before the failure
and the error that ended the batch, if any. -/
def mainBatch (cs : ℤ) : List (LasInput α) → List (List (Row α)) × Option SourceError
  | [] => ([], none)
  | inp :: rest =>
      match exportJob cs inp with
      | Except.error e => ([], some e)
      | Except.ok out =>
          let r := mainBatch cs rest
          (out :: r.1, r.2)

/-- The GUI batch loop (`App._export_worker`): each job runs inside
`try ... except Exception`, so every input is attempted and each job's error is
captured in isolation. -/
def exportWorker (cs : ℤ) (inputs : List (LasInput α)) :
    List (Except SourceError (List (Row α))) :=
  inputs.map (exportJob cs)

theorem excelFinal_length (st : ExcelState α) :
    (excelFinal st).length = st.done.length + 1 := by
  simp [excelFinal]

theorem excelInv_mem_facts {R k : ℕ} {st : ExcelState α} (h : ExcelInv R k st) :
    ∀ s ∈ excelFinal st,
      s.rows.head? = some Row.header ∧ 1 ≤ s.rows.length ∧ s.rows.length ≤ R := by
  intro s hs
  have hs' : s ∈ st.done ++ [st.cur] := by simpa [excelFinal] using hs
  obtain ⟨ps, hps⟩ := h.shape s hs'
  refine ⟨by simp [hps], by simp [hps], ?_⟩
  rcases List.mem_append.mp hs' with hd | hc
  · exact (h.done_full s hd).le
  · have hc2 : s = st.cur := by simpa using hc
    rw [hc2, ← h.rows_eq]
    exact h.rows_le

theorem excelInv_tail_sheets {R k : ℕ} {st : ExcelState α} (hR : 2 ≤ R)
    (h : ExcelInv R k st) :
    ∀ s ∈ (excelFinal st).tail,
      2 ≤ s.rows.length ∧ ∃ p, s.rows.get? 1 = some (Row.data p) := by
  intro s hs
  have hmem : s ∈ excelFinal st := List.mem_of_mem_tail hs
  have hmem' : s ∈ st.done ++ [st.cur] := by simpa [excelFinal] using hmem
  obtain ⟨ps, hps⟩ := h.shape s hmem'
  have h2 : 2 ≤ s.rows.length := by
    cases hdone : st.done with
    | nil => simp [excelFinal, hdone] at hs
    | cons d ds =>
        have hds : s ∈ ds ++ [st.cur] := by simpa [excelFinal, hdone] using hs
        rcases List.mem_append.mp hds with hd | hc
        · have hd2 : s ∈ st.done := by
            rw [hdone]; exact List.mem_cons_of_mem d hd
          rw [h.done_full s hd2]; exact hR
        · have hc2 : s = st.cur := by simpa using hc
          rcases h.rows_ge with hge | ⟨hnil, _⟩
          · rw [hc2, ← h.rows_eq]; exact hge
          · rw [hdone] at hnil; exact absurd hnil (by simp)
  refine ⟨h2, ?_⟩
  rcases ps with _ | ⟨q, qs⟩
  · rw [hps] at h2; simp at h2
  · exact ⟨q, by simp [hps]⟩

theorem excel_pages_count (R : ℕ) (hR : 2 ≤ R) (cs : ℤ) (points : List α) :
    (export_las_to_excel R cs points).length
      = if points.length = 0 then 1 else (points.length - 1) / (R - 1) + 1 := by
  rw [export_las_to_excel_eq_run]
  have h := excelInv_run R hR points
  rw [excelFinal_length]
  have hc := h.count_eq
  rw [Nat.mul_comm] at hc
  rcases h.rows_ge with hge | ⟨hnil, hone⟩
  · have hN : points.length ≠ 0 := by omega
    have hrle := h.rows_le
    have hdiv : (points.length - 1) / (R - 1) = (excelRunState R points).done.length := by
      have h1 : points.length - 1
          = (R - 1) * (excelRunState R points).done.length
            + ((excelRunState R points).rowsInSheet - 2) := by omega
      rw [h1, Nat.mul_add_div (by omega), Nat.div_eq_of_lt (by omega)]
      omega
    rw [if_neg hN, hdiv]
  · have hN : points.length = 0 := by
      rw [hc, hnil, hone]; simp
    rw [if_pos hN, hnil]
    simp

theorem excel_last_page (R : ℕ) (hR : 2 ≤ R) (cs : ℤ) (points : List α) :
    ((export_las_to_excel R cs points).getLast?).map (fun s => s.rows.length)
      = some (1 + (points.length
          - ((export_las_to_excel R cs points).length - 1) * (R - 1))) := by
  rw [export_las_to_excel_eq_run]
  have h := excelInv_run R hR points
  have hlast : (excelFinal (excelRunState R points)).getLast?
      = some (excelRunState R points).cur := by
    simp [excelFinal, List.getLast?_concat]
  rw [hlast, excelFinal_length]
  simp only [Option.map_some', Option.some.injEq]
  have hc := h.count_eq
  have hre := h.rows_eq
  have hge1 : 1 ≤ (excelRunState R points).rowsInSheet := by
    rcases h.rows_ge with h2 | ⟨_, h2⟩ <;> omega
  have hs : (excelRunState R points).done.length + 1 - 1
      = (excelRunState R points).done.length := by omega
  rw [hs]
  omega

/-- C1: for every successful export (flat CSV or paginated Excel), the data
rows written equal the decoded input points in input order — none dropped,
duplicated, or reordered — the number of data rows equals the point count, and
for every chunk size the output content is identical: chunking affects batching
only, never content or order. -/
theorem claim1_rows_equal_points (R : ℕ) (cs cs' : ℤ) (points : List α) :
    rowData (export_las_to_csv cs points) = points ∧
    (rowData (export_las_to_csv cs points)).length = points.length ∧
    allData (export_las_to_excel R cs points) = points ∧
    (allData (export_las_to_excel R cs points)).length = points.length ∧
    export_las_to_csv cs points = export_las_to_csv cs' points ∧
    export_las_to_excel R cs points = export_las_to_excel R cs' points := by
  refine ⟨?_, ?_, ?_, ?_, ?_, ?_⟩
  · rw [export_las_to_csv_eq]; simp
  · rw [export_las_to_csv_eq]; simp
  · exact allData_export R cs points
  · rw [allData_export R cs points]
  · rw [export_las_to_csv_eq, export_las_to_csv_eq]
  · rw [export_las_to_excel_eq_run, export_las_to_excel_eq_run]

/-- C2 counterexample: with `max_rows_per_page = 3` and 2 input points the code
produces 1 page (header plus two data rows, exactly 3 = R rows), while the
claimed formula `ceil((N+1)/(R-1)) = ceil(3/2) = 2` demands 2 pages. -/
theorem claim2_counterexample :
    ¬ ((export_las_to_excel 3 (1 : ℤ) [(0 : ℤ), 1]).length
        = (2 + 1 + (3 - 1) - 1) / (3 - 1)) := by decide

/-- C2 (amended): for `max_rows_per_page = R ≥ 2` and `N` input points the
number of pages equals `max 1 (ceil(N/(R-1)))`, i.e. 1 when `N = 0` and
`(N-1)/(R-1) + 1` otherwise; no page ever exceeds `R` rows including its
header; the last page's row count is `1 + (N - (pages-1)*(R-1))`; and every
page's first row is exactly the header row. -/
theorem claim2_amended_page_count (R : ℕ) (hR : 2 ≤ R) (cs : ℤ) (points : List α) :
    (export_las_to_excel R cs points).length
      = (if points.length = 0 then 1 else (points.length - 1) / (R - 1) + 1) ∧
    (∀ s ∈ export_las_to_excel R cs points, s.rows.length ≤ R) ∧
    ((export_las_to_excel R cs points).getLast?).map (fun s => s.rows.length)
      = some (1 + (points.length
          - ((export_las_to_excel R cs points).length - 1) * (R - 1))) ∧
    (∀ s ∈ export_las_to_excel R cs points, s.rows.head? = some Row.header) := by
  refine ⟨excel_pages_count R hR cs points, ?_, excel_last_page R hR cs points, ?_⟩
  · intro s hs
    rw [export_las_to_excel_eq_run] at hs
    exact (excelInv_mem_facts (excelInv_run R hR points) s hs).2.2
  · intro s hs
    rw [export_las_to_excel_eq_run] at hs
    exact (excelInv_mem_facts (excelInv_run R hR points) s hs).1

theorem claim2_amended_witness :
    (export_las_to_excel 3 (1 : ℤ) [(0 : ℤ), 1, 2]).length = 2 := by
  have h := claim2_amended_page_count 3 (by norm_num) (1 : ℤ) [(0 : ℤ), 1, 2]
  simpa using h.1

/-- C3: on each data-row write finding the current page full
(`rows_in_sheet >= max_rows_per_page`), the sink rolls the current page into
the workbook, allocates a new page whose title suffix increments by one,
re-emits the header as its row 1 and writes the pending data row as its row 2;
page titles are `Points_1, Points_2, ...` starting at 1 and strictly
increasing with the page index, and no data row is lost or duplicated at a
page boundary. -/
theorem claim3_page_rollover (R : ℕ) (hR : 2 ≤ R) (cs : ℤ) (points : List α) :
    (∀ (st : ExcelState α) (p : α), R ≤ st.rowsInSheet →
        excelWriteRow R st p =
          { sheetIndex := st.sheetIndex + 1
            done := st.done ++ [st.cur]
            cur := { title := sheetTitle (st.sheetIndex + 1)
                     rows := [Row.header, Row.data p] }
            rowsInSheet := 2 }) ∧
    (export_las_to_excel R cs points).map Sheet.title
      = (List.range (export_las_to_excel R cs points).length).map
          (fun i => sheetTitle (i + 1)) ∧
    (∀ s ∈ (export_las_to_excel R cs points).tail,
        ∃ p, s.rows.get? 1 = some (Row.data p)) ∧
    allData (export_las_to_excel R cs points) = points := by
  refine ⟨?_, ?_, ?_, allData_export R cs points⟩
  · intro st p hfull
    simp [excelWriteRow, hfull]
  · rw [export_las_to_excel_eq_run, excelFinal_length]
    exact (excelInv_run R hR points).titles_eq
  · intro s hs
    rw [export_las_to_excel_eq_run] at hs
    exact (excelInv_tail_sheets hR (excelInv_run R hR points) s hs).2

theorem claim3_witness :
    (export_las_to_excel 3 (1 : ℤ) [(0 : ℤ), 1, 2]).map Sheet.title
      = ["Points_1", "Points_2"] :=
  (claim3_page_rollover 3 (by norm_num) (1 : ℤ) [(0 : ℤ), 1, 2]).2.1.trans (by decide)

/-- C5: an export of an input with zero points produces exactly one page
(paginated) or one file (flat) whose content is exactly one row, the header
row `EASTING,NORTHING,ELEVATION`; the sink is never left unopened. -/
theorem claim5_zero_points (cs : ℤ) (f : α → List String) :
    export_las_to_excel EXCEL_MAX_ROWS cs ([] : List α)
      = [{ title := sheetTitle 1, rows := [Row.header] }] ∧
    export_las_to_csv cs ([] : List α) = [Row.header] ∧
    (export_las_to_csv cs ([] : List α)).map (csvLine f)
      = ["EASTING,NORTHING,ELEVATION"] ∧
    (export_las_to_excel EXCEL_MAX_ROWS cs ([] : List α)).map
        (fun s => s.rows.map (Row.render f))
      = [[["EASTING", "NORTHING", "ELEVATION"]]] := by
  have hx : export_las_to_excel EXCEL_MAX_ROWS cs ([] : List α)
      = [{ title := sheetTitle 1, rows := [Row.header] }] := by
    simp [export_las_to_excel, chunksOf, chunksAcc, excelFinal, excelInit]
  have hc : export_las_to_csv cs ([] : List α) = [Row.header] := by
    simp [export_las_to_csv, chunksOf, chunksAcc]
  refine ⟨hx, hc, ?_, ?_⟩
  · rw [hc]
    simp only [List.map_cons, List.map_nil]
    rw [csvLine]
    norm_num [Row.render, headerCells]
    decide
  · rw [hx]
    simp [Row.render, headerCells]

/-- C6: each output coordinate equals `stored_integer * scale + offset`,
computed independently per axis with no additional rounding (exact arithmetic
over the rationals standing for the header doubles); in particular, for
`scale = (0.01, 0.01, 0.01)`, `offset = (0, 0, 0)` and stored triple
`(100, -250, 5000)` the decoded output is `(1.00, -2.50, 50.00)`, and that
triple is the one data row the CSV export writes for this input. -/
theorem claim6_decode_formula (h : LasHeader) (p : RawPoint) :
    decodePoint h p
      = ((p.X : ℚ) * h.xScale + h.xOffset,
         (p.Y : ℚ) * h.yScale + h.yOffset,
         (p.Z : ℚ) * h.zScale + h.zOffset) ∧
    decodePoint ⟨1/100, 1/100, 1/100, 0, 0, 0⟩ ⟨100, -250, 5000⟩
      = (1, -5/2, 50) ∧
    rowData (export_las_to_csv 1
        ((chunk_points ⟨1/100, 1/100, 1/100, 0, 0, 0⟩ 1 [⟨100, -250, 5000⟩]).flatten))
      = [(1, -5/2, 50)] := by
  refine ⟨rfl, by norm_num [decodePoint], ?_⟩
  rw [export_las_to_csv_eq]
  simp only [rowData_header_cons, rowData_map_data]
  simp [chunk_points, chunksOf, chunksAcc]
  norm_num [decodePoint]

/-- C7: running the same export twice on the same input yields identical flat
CSV output (hence byte-identical rendered lines) and an identical sequence of
page titles for the paginated output: the export is deterministic as a
two-run property. -/
theorem claim7_two_runs (R : ℕ) (cs : ℤ) (points : List α) (f : α → List String)
    (out1 out2 : List (Row α)) (s1 s2 : List (Sheet α))
    (h1 : out1 = export_las_to_csv cs points)
    (h2 : out2 = export_las_to_csv cs points)
    (g1 : s1 = export_las_to_excel R cs points)
    (g2 : s2 = export_las_to_excel R cs points) :
    out1 = out2 ∧ out1.map (csvLine f) = out2.map (csvLine f) ∧
    s1.map Sheet.title = s2.map Sheet.title := by
  subst h1; subst h2; subst g1; subst g2
  exact ⟨rfl, rfl, rfl⟩

/-- Cell rendering of an integer point value, used to instantiate witnesses. -/
def intCells (z : ℤ) : List String := [toString z]

theorem claim7_witness :
    export_las_to_csv (1 : ℤ) [(0 : ℤ)] = export_las_to_csv (1 : ℤ) [(0 : ℤ)] ∧
    (export_las_to_csv (1 : ℤ) [(0 : ℤ)]).map (csvLine intCells)
      = (export_las_to_csv (1 : ℤ) [(0 : ℤ)]).map (csvLine intCells) ∧
    (export_las_to_excel 3 (1 : ℤ) [(0 : ℤ)]).map Sheet.title
      = (export_las_to_excel 3 (1 : ℤ) [(0 : ℤ)]).map Sheet.title :=
  claim7_two_runs 3 1 [(0 : ℤ)] intCells _ _ _ _ rfl rfl rfl rfl

/-- C4 counterexample: on a truncated input (1 point declared, 0 available)
the CSV export fails with `Truncated` but leaves an output file holding the
header row on disk — the claimed policy "writes no output file at all" is
violated — while the Excel export leaves no file, so the alternative
finalized-partial-container policy is not applied consistently either. -/
theorem claim4_counterexample :
    (csvRun (1 : ℤ) (⟨1, ([] : List ℤ)⟩ : LasInput ℤ)).result
        = Except.error SourceError.Truncated ∧
    (csvRun (1 : ℤ) (⟨1, ([] : List ℤ)⟩ : LasInput ℤ)).file
        = some [Row.header] ∧
    ¬ ((csvRun (1 : ℤ) (⟨1, ([] : List ℤ)⟩ : LasInput ℤ)).file = none) ∧
    (excelRun EXCEL_MAX_ROWS (1 : ℤ) (⟨1, ([] : List ℤ)⟩ : LasInput ℤ)).file
        = none := by
  decide

/-- C4 (amended): an export from a truncated input fails with a `Truncated`
error; the Excel export writes no output file at all, while the CSV export
leaves a partial output file containing exactly the header row — the two
sinks do not share one consistent policy. -/
theorem claim4_amended_truncation (cs : ℤ) (R : ℕ) (inp : LasInput α)
    (h : inp.points.length < inp.declaredCount) :
    csvRun cs inp
      = { file := some [Row.header]
          result := Except.error SourceError.Truncated } ∧
    excelRun R cs inp
      = { file := none, result := Except.error SourceError.Truncated } := by
  constructor <;> simp [csvRun, excelRun, sourceOpen, h]

theorem claim4_witness :
    csvRun (1 : ℤ) (⟨1, ([] : List ℤ)⟩ : LasInput ℤ)
      = { file := some [Row.header]
          result := Except.error SourceError.Truncated } :=
  (claim4_amended_truncation 1 EXCEL_MAX_ROWS (⟨1, ([] : List ℤ)⟩ : LasInput ℤ)
    (by decide)).1

/-- C8 counterexample: in the CLI batch path of `main` a batch of two inputs
whose first is truncated produces no outputs at all and stops with the error;
the second input, whose export alone succeeds, is never exported — the
failure of one input does abort the remaining jobs there. -/
theorem claim8_counterexample :
    (mainBatch (1 : ℤ) [(⟨1, ([] : List ℤ)⟩ : LasInput ℤ), ⟨1, [5]⟩]).1 = [] ∧
    (mainBatch (1 : ℤ) [(⟨1, ([] : List ℤ)⟩ : LasInput ℤ), ⟨1, [5]⟩]).2
        = some SourceError.Truncated ∧
    exportJob (1 : ℤ) (⟨1, [(5 : ℤ)]⟩ : LasInput ℤ)
        = Except.ok [Row.header, Row.data 5] := by
  decide

/-- C8 (amended): in the GUI worker path (`App._export_worker`) each job runs
inside its own try/except, so every input of a batch is attempted, each job's
result depends only on its own input, and a failure is isolated; in the CLI
path of `main`, however, the first failing job ends the batch with no further
inputs exported. -/
theorem claim8_amended_isolation (cs : ℤ) (inputs : List (LasInput α)) :
    (exportWorker cs inputs).length = inputs.length ∧
    (∀ i : ℕ, (exportWorker cs inputs).get? i
        = (inputs.get? i).map (exportJob cs)) ∧
    (∀ (inp : LasInput α) (rest : List (LasInput α)) (e : SourceError),
        exportJob cs inp = Except.error e
          → mainBatch cs (inp :: rest) = ([], some e)) := by
  refine ⟨by simp [exportWorker], ?_, ?_⟩
  · intro i
    simp [exportWorker]
  · intro inp rest e he
    simp [mainBatch, he]

theorem claim8_witness :
    (exportWorker (1 : ℤ)
        [(⟨1, ([] : List ℤ)⟩ : LasInput ℤ), ⟨1, [5]⟩]).length = 2 ∧
    mainBatch (1 : ℤ) [(⟨1, ([] : List ℤ)⟩ : LasInput ℤ)]
      = ([], some SourceError.Truncated) := by
  have h := claim8_amended_isolation (1 : ℤ)
    [(⟨1, ([] : List ℤ)⟩ : LasInput ℤ), ⟨1, [5]⟩]
  refine ⟨h.1, ?_⟩
  exact (claim8_amended_isolation (1 : ℤ) []).2.2
    (⟨1, ([] : List ℤ)⟩ : LasInput ℤ) [] SourceError.Truncated (by decide)

/-- C9: for every configured chunk size, zero and negative values included,
the effective chunk size is clamped to at least 1 and both exports proceed to
completion with the same full output they produce for any positive chunk
size. -/
theorem claim9_chunk_clamp (cs : ℤ) (R : ℕ) (points : List α) :
    1 ≤ clampChunk cs ∧
    export_las_to_csv cs points = export_las_to_csv 1 points ∧
    export_las_to_excel R cs points = export_las_to_excel R 1 points ∧
    export_las_to_csv cs points = Row.header :: points.map Row.data := by
  refine ⟨?_, ?_, ?_, export_las_to_csv_eq cs points⟩
  · have h1 : (1 : ℤ) ≤ max 1 cs := le_max_left 1 cs
    simp only [clampChunk]
    omega
  · rw [export_las_to_csv_eq, export_las_to_csv_eq]
  · rw [export_las_to_excel_eq_run, export_las_to_excel_eq_run]

/-- C10: throughout every paginated export the current sheet's row count
(header included) stays between 1 and `EXCEL_MAX_ROWS` after every data row
written; a new page is allocated only at a data-row write that finds the page
full, and the pending data row immediately becomes the new page's row 2;
hence every page after the first holds at least one data row — only the first
page can be header-only — and no empty trailing page is ever emitted. -/
theorem claim10_sheet_invariant (cs : ℤ) (points : List α) :
    (∀ k : ℕ,
        1 ≤ (excelRunState EXCEL_MAX_ROWS (points.take k)).rowsInSheet ∧
        (excelRunState EXCEL_MAX_ROWS (points.take k)).rowsInSheet
          ≤ EXCEL_MAX_ROWS) ∧
    (∀ (st : ExcelState α) (p : α),
        (excelWriteRow EXCEL_MAX_ROWS st p).done = st.done ∨
        ((excelWriteRow EXCEL_MAX_ROWS st p).done = st.done ++ [st.cur] ∧
         (excelWriteRow EXCEL_MAX_ROWS st p).cur.rows
           = [Row.header, Row.data p])) ∧
    (∀ s ∈ (export_las_to_excel EXCEL_MAX_ROWS cs points).tail,
        2 ≤ s.rows.length) ∧
    (∀ s ∈ export_las_to_excel EXCEL_MAX_ROWS cs points,
        1 ≤ s.rows.length) := by
  have hR : 2 ≤ EXCEL_MAX_ROWS := by norm_num [EXCEL_MAX_ROWS]
  refine ⟨?_, ?_, ?_, ?_⟩
  · intro k
    have h := excelInv_run EXCEL_MAX_ROWS hR (points.take k)
    refine ⟨?_, h.rows_le⟩
    rcases h.rows_ge with h2 | ⟨_, h2⟩ <;> omega
  · intro st p
    by_cases hfull : EXCEL_MAX_ROWS ≤ st.rowsInSheet
    · right
      constructor <;> simp [excelWriteRow, hfull]
    · left
      simp [excelWriteRow, hfull]
  · intro s hs
    rw [export_las_to_excel_eq_run] at hs
    exact (excelInv_tail_sheets hR (excelInv_run EXCEL_MAX_ROWS hR points) s hs).1
  · intro s hs
    rw [export_las_to_excel_eq_run] at hs
    exact (excelInv_mem_facts (excelInv_run EXCEL_MAX_ROWS hR points) s hs).2.1

theorem claim10_witness :
    1 ≤ (excelRunState EXCEL_MAX_ROWS ([(0 : ℤ), 1, 2].take 2)).rowsInSheet ∧
    (excelRunState EXCEL_MAX_ROWS ([(0 : ℤ), 1, 2].take 2)).rowsInSheet
      ≤ EXCEL_MAX_ROWS :=
  (claim10_sheet_invariant (1 : ℤ) [(0 : ℤ), 1, 2]).1 2
